import Mathlib

/-!
Verification development for the playback-synchronized hydration engine of
`src/frontend/content.js` (Semantic Subtitle Translator content script).

The JavaScript is embedded shallowly:

* Playback seconds are modelled as `ℚ`, `performance.now()` timestamps as `ℕ`,
  `Date.now()` timestamps as `ℤ`.
* The JS `Map` used as cache (insertion-ordered, `set` on an existing key keeps
  the key's position) is modelled as an association list in insertion order.
* The engine's mutable `state` object is the structure `Sys`; every event
  handler of the source becomes a function `Sys → Sys`, and the browser's
  event loop is modelled by the event type `Ev` together with `step`/`run`.
  One `Ev` corresponds to one task of the event loop; a promise settlement
  together with its `.then`/`.catch` continuation is a single task
  (microtasks drain before the next task starts), which is why `Ev.netSettle`
  performs the continuation of the settled stage atomically.
* `AbortController.abort()` is modelled by marking the request's record
  `aborted`; a fetch whose controller was aborted can only settle by rejecting
  with an `AbortError`, so `settleNet` routes any settlement of an aborted
  request into the catch handler with `isAbort = true`.
* Calls to `setCaptionText` (the render callback) are recorded in the trace
  field `renders`; DOM/overlay manipulation itself is not modelled.
-/

namespace SST

/-- Constants from the `SST` object (lines 12–28 of content.js). -/
def TICK_HZ : ℕ := 4

/-- Total fetch window in seconds (`WINDOW_SEC`). -/
def WINDOW_SEC : ℚ := 6

/-- Lookahead tolerance in seconds (`CHUNK_AHEAD_SEC`). -/
def CHUNK_AHEAD_SEC : ℚ := 2

/-- Cache TTL in milliseconds (`CACHE_TTL_MS = 2 * 60 * 1000`). -/
def CACHE_TTL_MS : ℤ := 2 * 60 * 1000

/-- Size bound used by `cacheSet` (`if (state.cache.size > 500)`). -/
def CACHE_MAX : ℕ := 500

/-- Soft-recovery delay in milliseconds (`setTimeout(..., 1200)` on line 231).
The model abstracts timer expiry as the event `Ev.recoveryTimer`. -/
def RECOVERY_DELAY_MS : ℕ := 1200

end SST

/-- A transcript line `{start, end, text}` (original or translated). -/
structure Line where
  start : ℚ
  «end» : ℚ
  text : String
deriving DecidableEq

/-- A cache entry `{ ts, data }` (line 50: `key -> { ts:number, data:any }`).
`ghostIns` is specification instrumentation only: the ordinal of the entry's
insertion (assigned when the key is first inserted, kept on overwrite because
a JS `Map.set` on an existing key keeps the key's position, reassigned if the
key is deleted and inserted again). It lets the eviction theorems talk about
"the oldest-inserted entry still present"; no source behavior depends on it. -/
structure CacheEntry where
  ts : ℤ
  data : List Line
  ghostIns : ℕ
deriving DecidableEq

/-- The cache: `state.cache`, a JS `Map` in insertion order, plus the ghost
insertion counter feeding `CacheEntry.ghostIns`. -/
structure CacheSt where
  entries : List (String × CacheEntry)
  ctr : ℕ
deriving DecidableEq

/-- JS `Map.has` on the association-list model. -/
def mapHas (m : List (String × CacheEntry)) (k : String) : Bool :=
  m.any (fun p => p.1 == k)

/-- JS `Map.get` on the association-list model. -/
def mapLookup (m : List (String × CacheEntry)) (k : String) : Option CacheEntry :=
  (m.find? (fun p => p.1 == k)).map (fun p => p.2)

/-- JS `Map.delete` on the association-list model. -/
def mapDelete (m : List (String × CacheEntry)) (k : String) :
    List (String × CacheEntry) :=
  m.filter (fun p => !(p.1 == k))

/-- JS `Map.set`: overwrite in place if the key is present (keeping its
position in insertion order), otherwise append at the end.  The overwritten
position keeps its own `ghostIns` (instrumentation: an overwrite is not a new
insertion, exactly as a JS `Map.set` on an existing key keeps the key's
insertion position); `ts` and `data` are replaced by the new entry's. -/
def mapSet (m : List (String × CacheEntry)) (k : String) (e : CacheEntry) :
    List (String × CacheEntry) :=
  if mapHas m k then
    m.map (fun p => if p.1 == k then (k, { e with ghostIns := p.2.ghostIns }) else p)
  else m ++ [(k, e)]

/-- `cacheKey(videoId, lang, tSec)` (lines 128–131): the string
`videoId|lang|bucket` with `bucket = Math.floor(tSec)`. -/
def cacheKey (videoId lang : String) (tSec : ℚ) : String :=
  videoId ++ "|" ++ lang ++ "|" ++ toString tSec.floor

/-- `cacheGet(key)` (lines 132–140): miss on absent key; lazily evict and miss
when `Date.now() - hit.ts > CACHE_TTL_MS`; otherwise return the data. Returns
the result together with the possibly-updated cache. -/
def cacheGet (now : ℤ) (key : String) (c : CacheSt) :
    Option (List Line) × CacheSt :=
  match mapLookup c.entries key with
  | none => (none, c)
  | some hit =>
    if now - hit.ts > SST.CACHE_TTL_MS then
      (none, { c with entries := mapDelete c.entries key })
    else (some hit.data, c)

/-- `cacheSet(key, data)` (lines 141–148): store `{ ts: Date.now(), data }`,
then if the size exceeds 500 delete the first key of the map.  A fresh key is
inserted with the next insertion ordinal and bumps the (ghost) counter. -/
def cacheSet (now : ℤ) (key : String) (data : List Line) (c : CacheSt) :
    CacheSt :=
  let c1 : CacheSt :=
    ⟨mapSet c.entries key ⟨now, data, c.ctr⟩,
     if mapHas c.entries key then c.ctr else c.ctr + 1⟩
  if c1.entries.length > SST.CACHE_MAX then
    match c1.entries.head? with
    | some p => { c1 with entries := mapDelete c1.entries p.1 }
    | none => c1
  else c1

/-- The entry `cacheSet(key, data)` evicts from cache `c` (the first entry of
the map when the insertion pushes the size past the bound), if any. -/
def cacheSetEvicted (now : ℤ) (key : String) (data : List Line) (c : CacheSt) :
    Option (String × CacheEntry) :=
  let m := mapSet c.entries key ⟨now, data, c.ctr⟩
  if m.length > SST.CACHE_MAX then m.head? else none

/-- JS `String.prototype.startsWith`, modelled on the character list. -/
def jsStartsWith (s pre : String) : Bool :=
  pre.data.isPrefixOf s.data

/-- The cache purge performed by `resetForNavigation` (lines 309–313): delete
every key that starts with `"${videoId}|"`. -/
def purgeByVideo (videoId : String) (c : CacheSt) : CacheSt :=
  { c with entries :=
      c.entries.filter (fun p => !(jsStartsWith p.1 (videoId ++ "|"))) }

/-- `renderFromWindow(lines, t)` (lines 235–246) reduced to the text handed to
`setCaptionText`: first line with `t >= start && t < end`, else the first line
with `start - t <= CHUNK_AHEAD_SEC && start > t`, else `""`. -/
def renderFromWindow (lines : List Line) (t : ℚ) : String :=
  match lines.find? (fun ln => decide (t ≥ ln.start) && decide (t < ln.«end»)) with
  | some current => current.text
  | none =>
    match lines.find?
        (fun ln => decide (ln.start - t ≤ SST.CHUNK_AHEAD_SEC) && decide (ln.start > t)) with
    | some current => current.text
    | none => ""

/-- Engine modes (`SST.MODES`). -/
inductive Mode where
  | idle
  | active
  | error
deriving DecidableEq

/-- Lifecycle of one hydration request (one `AbortController`).  `chunks` and
`translate` are the stages of `state.inflight.kind`; `aborted` records that
the controller's `abort()` was invoked while a stage was pending; `settled`
records that the promise chain finished (committed or failed). -/
inductive ReqStage where
  | chunks
  | translate
  | aborted
  | settled
deriving DecidableEq

/-- One hydration request: its stage plus the values captured by the closures
of `onTimeTick` (the cache key `ckey` and tick time `t` of lines 198/214). -/
structure Request where
  stage : ReqStage
  ckey : String
  t : ℚ
deriving DecidableEq

/-- Outcome of a network stage settlement, as seen by the promise chain of a
request that was not aborted: success with a line window, or a non-abort
failure (network error / non-ok response, lines 159 and 172). -/
inductive Outcome where
  | ok (lines : List Line)
  | err
deriving DecidableEq

/-- The engine state: the claim-relevant fields of the global `state` object
(lines 38–52).  `attached` stands for `state.videoEl !== null`; `reqs` is the
history of created requests (index = generation, `state.inflight` points into
it); `renders` is the trace of `setCaptionText` calls (most recent first);
`recovery` counts pending `setTimeout(() => setState(ACTIVE), 1200)` timers;
`attachPending` records a running `tryStartActive` wait loop. -/
structure Sys where
  mode : Mode
  enabled : Bool
  language : String
  hint : String
  videoId : Option String
  attached : Bool
  lastTickAt : ℕ
  inflight : Option ℕ
  reqs : List Request
  cache : CacheSt
  renders : List String
  recovery : ℕ
  attachPending : Bool
deriving DecidableEq

/-- `setCaptionText(text)` (lines 122–125), recorded as a render-call trace. -/
def setCaptionText (text : String) (s : Sys) : Sys :=
  { s with renders := text :: s.renders }

/-- `setState(next)` (lines 289–293). -/
def setState (next : Mode) (s : Sys) : Sys :=
  if s.mode = next then s else { s with mode := next }

/-- A request is live while a network stage of it is pending. -/
def Request.isLive (r : Request) : Prop :=
  r.stage = ReqStage.chunks ∨ r.stage = ReqStage.translate

instance (r : Request) : Decidable r.isLive := by
  unfold Request.isLive; infer_instance

/-- Invoking `state.inflight.ctrl.abort()`: if request `j` still has a pending
stage it will now settle as an `AbortError`; a settled controller's `abort()`
has no effect. -/
def abortMark (reqs : List Request) (j : ℕ) : List Request :=
  match reqs[j]? with
  | some r => if r.isLive then reqs.set j { r with stage := ReqStage.aborted } else reqs
  | none => reqs

/-- `if (state.inflight) { state.inflight.ctrl.abort(); state.inflight = null }`
(lines 205–209 and 297–300). -/
def abortInflight (s : Sys) : Sys :=
  match s.inflight with
  | none => s
  | some j => { s with reqs := abortMark s.reqs j, inflight := none }

/-- The `.catch` handler of the hydration chain (lines 224–232): an
`AbortError` returns silently; any other error sets mode `ERROR`, blanks the
caption and arms the 1200 ms recovery timer.  Note that it does not clear
`state.inflight`. -/
def hydrateCatch (isAbort : Bool) (s : Sys) : Sys :=
  if isAbort then s
  else
    let s1 := setState Mode.error s
    let s2 := setCaptionText "" s1
    { s2 with recovery := s2.recovery + 1 }

/-- Cache-miss path of `onTimeTick` (lines 205–232 up to the fetch): cancel any
previous inflight request, then create the new one (stage `chunks`). -/
def startRequest (ckey : String) (t : ℚ) (s : Sys) : Sys :=
  let s2 := abortInflight s
  { s2 with reqs := s2.reqs ++ [⟨ReqStage.chunks, ckey, t⟩],
            inflight := some s2.reqs.length }

/-- Lines 198–232 of `onTimeTick`: cache lookup, render on hit, start a
request on miss. -/
def tickHydrate (dn : ℤ) (t : ℚ) (vid : String) (s : Sys) : Sys :=
  match cacheGet dn (cacheKey vid s.language t) s.cache with
  | (some data, c) => setCaptionText (renderFromWindow data t) { s with cache := c }
  | (none, c) => startRequest (cacheKey vid s.language t) t { s with cache := c }

/-- `onTimeTick()` (lines 182–233).  `pn` is `performance.now()`, `dn` is
`Date.now()`, `t` is `videoEl.currentTime`, `isAd` is `isAdPlaying()`. -/
def onTimeTick (pn : ℕ) (dn : ℤ) (t : ℚ) (isAd : Bool) (s : Sys) : Sys :=
  if s.attached = false ∨ s.mode ≠ Mode.active then s
  else if pn - s.lastTickAt < 1000 / SST.TICK_HZ then s
  else
    match s.videoId with
    | none => { s with lastTickAt := pn }
    | some vid =>
      if isAd then setCaptionText "" { s with lastTickAt := pn }
      else tickHydrate dn t vid { s with lastTickAt := pn }

/-- Settlement of the pending network stage of request `i` together with its
continuation (the `.then`/`.catch` chain of lines 214–232).  An aborted
request settles only as an `AbortError` and is routed to the catch handler;
a settled request's chain has already finished. -/
def settleNet (i : ℕ) (dn : ℤ) (o : Outcome) (s : Sys) : Sys :=
  match s.reqs[i]? with
  | none => s
  | some r =>
    match r.stage with
    | ReqStage.aborted => hydrateCatch true s
    | ReqStage.settled => s
    | ReqStage.chunks =>
      match o with
      | Outcome.ok _ =>
        { s with reqs := s.reqs.set i { r with stage := ReqStage.translate },
                 inflight := some i }
      | Outcome.err =>
        hydrateCatch false
          { s with reqs := s.reqs.set i { r with stage := ReqStage.settled } }
    | ReqStage.translate =>
      match o with
      | Outcome.ok lines =>
        let s1 := { s with cache := cacheSet dn r.ckey lines s.cache }
        let s2 := setCaptionText (renderFromWindow lines r.t) s1
        { s2 with inflight := none,
                  reqs := s2.reqs.set i { r with stage := ReqStage.settled } }
      | Outcome.err =>
        hydrateCatch false
          { s with reqs := s.reqs.set i { r with stage := ReqStage.settled } }

/-- `removeOverlayAndListeners()` (lines 282–287): `state.videoEl = null`. -/
def removeOverlayAndListeners (s : Sys) : Sys :=
  { s with attached := false }

/-- `stopAll()` (lines 295–304). -/
def stopAll (s : Sys) : Sys :=
  removeOverlayAndListeners (abortInflight (setState Mode.idle s))

/-- `tryStartActive()` (lines 366–388): bail if not enabled, otherwise set mode
`ACTIVE` immediately and begin the attach wait loop.  The loop's outcome is a
separate event (`Ev.attachOk` / `Ev.attachFail`). -/
def tryStartActive (s : Sys) : Sys :=
  if s.enabled = false then s
  else { setState Mode.active s with attachPending := true }

/-- `resetForNavigation()` (lines 306–316): stop, purge the previous video's
cache entries, adopt the new video id. -/
def resetForNavigation (newVid : Option String) (s : Sys) : Sys :=
  { (match (stopAll s).videoId with
     | some vid => { stopAll s with cache := purgeByVideo vid (stopAll s).cache }
     | none => stopAll s) with videoId := newVid }

/-- `onUrlMaybeChanged()` (lines 350–363), for an event whose parsed video id
is `newVid`; the `href === state.lastUrl` short-circuit only suppresses
duplicate events and is not modelled separately. -/
def onUrlMaybeChanged (newVid : Option String) (s : Sys) : Sys :=
  if newVid = s.videoId then s
  else if (resetForNavigation newVid s).enabled = true ∧
      (resetForNavigation newVid s).mode ≠ Mode.error then
    tryStartActive (resetForNavigation newVid s)
  else resetForNavigation newVid s

/-- JS `msg.settings?.field || state.field`: an absent or empty-string value
keeps the previous one. -/
def orKeep (v : Option String) (old : String) : String :=
  match v with
  | none => old
  | some x => if x = "" then old else x

/-- Lines 404–408: start or stop depending on the just-updated `enabled`. -/
def settingsApply (s1 : Sys) : Sys :=
  if s1.enabled = true ∧ s1.mode = Mode.idle then tryStartActive s1
  else if s1.enabled = false ∧ s1.mode ≠ Mode.idle then stopAll s1
  else s1

/-- The `SETTINGS_CHANGED` branch of the message listener (lines 399–410). -/
def onSettingsChanged (en : Bool) (l h : Option String) (s : Sys) : Sys :=
  settingsApply { s with enabled := en,
                         language := orKeep l s.language,
                         hint := orKeep h s.hint }

/-- The `START_TRANSLATION` branch (lines 412–419); `v` is the result of
`getVideoIdFromUrl()`. -/
def onStartTranslation (l h : Option String) (v : Option String) (s : Sys) : Sys :=
  tryStartActive { s with enabled := true,
                          language := orKeep l s.language,
                          hint := orKeep h s.hint,
                          videoId := v }

/-- One event-loop task hitting the engine. -/
inductive Ev where
  | timeUpdate (pn : ℕ) (dn : ℤ) (t : ℚ) (isAd : Bool)
  | seeked (pn : ℕ) (dn : ℤ) (t : ℚ) (isAd : Bool)
  | rateChange (pn : ℕ) (dn : ℤ) (t : ℚ) (isAd : Bool)
  | mediaPlay
  | mediaPause
  | netSettle (i : ℕ) (dn : ℤ) (o : Outcome)
  | recoveryTimer
  | attachOk (pn : ℕ) (dn : ℤ) (t : ℚ) (isAd : Bool)
  | attachFail
  | settingsChanged (enabled : Bool) (language hint : Option String)
  | startTranslation (language hint : Option String) (newVid : Option String)
  | stopTranslation
  | urlChanged (newVid : Option String)
deriving DecidableEq

/-- Dispatch of one event-loop task.  The video-element listeners
(`timeupdate`, `seeked`, `ratechange`, `play`, `pause`, lines 249–260) fire
only while attached; `seeked` is wired directly to `onTimeTick`, `ratechange`
first resets `state.lastTickAt` to 0; `play`/`pause` only blank the caption.
`attachOk` is the success of the `tryStartActive` wait loop (lines 374–381:
attach, reset `lastTickAt`, immediate `onTimeTick`); `attachFail` its
exhaustion (lines 383–385); `recoveryTimer` the 1200 ms timer of line 231. -/
def step (s : Sys) (e : Ev) : Sys :=
  match e with
  | Ev.timeUpdate pn dn t ad => onTimeTick pn dn t ad s
  | Ev.seeked pn dn t ad => onTimeTick pn dn t ad s
  | Ev.rateChange pn dn t ad =>
      if s.attached then onTimeTick pn dn t ad { s with lastTickAt := 0 } else s
  | Ev.mediaPlay => if s.attached then setCaptionText "" s else s
  | Ev.mediaPause => if s.attached then setCaptionText "" s else s
  | Ev.netSettle i dn o => settleNet i dn o s
  | Ev.recoveryTimer =>
      if s.recovery = 0 then s
      else setState Mode.active { s with recovery := s.recovery - 1 }
  | Ev.attachOk pn dn t ad =>
      if s.attachPending then
        onTimeTick pn dn t ad
          { s with attachPending := false, attached := true, lastTickAt := 0 }
      else s
  | Ev.attachFail =>
      if s.attachPending then setState Mode.error { s with attachPending := false }
      else s
  | Ev.settingsChanged en l h => onSettingsChanged en l h s
  | Ev.startTranslation l h v => onStartTranslation l h v s
  | Ev.stopTranslation => stopAll s
  | Ev.urlChanged v => onUrlMaybeChanged v s

/-- Run a sequence of event-loop tasks. -/
def run (s : Sys) (evs : List Ev) : Sys :=
  evs.foldl step s

/-- The state after `boot()` (lines 441–446), with `v0` the video id parsed
from the initial URL. -/
def initSys (v0 : Option String) : Sys :=
  { mode := Mode.idle, enabled := false, language := "en", hint := "",
    videoId := v0, attached := false, lastTickAt := 0, inflight := none,
    reqs := [], cache := ⟨[], 0⟩, renders := [], recovery := 0,
    attachPending := false }

/-- Request `i` has a pending network stage in state `s`. -/
def LiveAt (s : Sys) (i : ℕ) : Prop :=
  ∃ r, s.reqs[i]? = some r ∧ r.isLive

/-- One operation against the cache, as issued by the engine. -/
inductive CacheOp where
  | get (now : ℤ) (key : String)
  | set (now : ℤ) (key : String) (data : List Line)
  | purge (videoId : String)

/-- Apply one cache operation. -/
def applyCacheOp (c : CacheSt) : CacheOp → CacheSt
  | CacheOp.get now key => (cacheGet now key c).2
  | CacheOp.set now key data => cacheSet now key data c
  | CacheOp.purge vid => purgeByVideo vid c

/-- Run a sequence of cache operations from the empty cache. -/
def runCache (ops : List CacheOp) : CacheSt :=
  ops.foldl applyCacheOp ⟨[], 0⟩

/-- Structural invariant of the cache: bounded size, entries listed in
strictly increasing insertion order, all ordinals below the counter. -/
def CacheInv (c : CacheSt) : Prop :=
  c.entries.length ≤ SST.CACHE_MAX ∧
  c.entries.Pairwise (fun a b => a.2.ghostIns < b.2.ghostIns) ∧
  ∀ p ∈ c.entries, p.2.ghostIns < c.ctr

theorem cacheInv_filter {c : CacheSt} (f : String × CacheEntry → Bool)
    (h : CacheInv c) : CacheInv ⟨c.entries.filter f, c.ctr⟩ := by
  obtain ⟨h1, h2, h3⟩ := h
  refine ⟨le_trans (List.length_filter_le _ _) h1, h2.sublist (List.filter_sublist _), ?_⟩
  intro p hp
  exact h3 p (List.mem_of_mem_filter hp)

theorem cacheInv_cacheGet {c : CacheSt} (h : CacheInv c) (now : ℤ) (key : String) :
    CacheInv (cacheGet now key c).2 := by
  unfold cacheGet
  match hl : mapLookup c.entries key with
  | none => exact h
  | some hit =>
    dsimp only
    split
    · exact cacheInv_filter _ h
    · exact h

theorem cacheInv_purge {c : CacheSt} (h : CacheInv c) (vid : String) :
    CacheInv (purgeByVideo vid c) := by
  unfold purgeByVideo
  exact cacheInv_filter _ h

theorem mapSet_pairwise {c : CacheSt} (h : CacheInv c) (key : String)
    (now : ℤ) :
    ∀ data : List Line,
      (mapSet c.entries key ⟨now, data, c.ctr⟩).Pairwise
        (fun a b => a.2.ghostIns < b.2.ghostIns) := by
  intro data
  obtain ⟨_, h2, h3⟩ := h
  unfold mapSet
  by_cases hk : mapHas c.entries key
  · rw [if_pos hk, List.pairwise_map]
    exact h2.imp (fun {a b} hab => by
      split <;> split <;> simpa using hab)
  · rw [if_neg hk, List.pairwise_append]
    refine ⟨h2, List.pairwise_singleton _ _, ?_⟩
    intro a ha b hb
    simp only [List.mem_singleton] at hb
    subst hb
    exact h3 a ha

theorem mapSet_ghost_lt {c : CacheSt} (h : CacheInv c) (key : String)
    (now : ℤ) (data : List Line) :
    ∀ p ∈ mapSet c.entries key ⟨now, data, c.ctr⟩,
      p.2.ghostIns < c.ctr + 1 := by
  obtain ⟨_, _, h3⟩ := h
  unfold mapSet
  by_cases hk : mapHas c.entries key
  · rw [if_pos hk]
    intro p hp
    obtain ⟨q, hq, rfl⟩ := List.mem_map.mp hp
    have := h3 q hq
    split <;> simp <;> omega
  · rw [if_neg hk]
    intro p hp
    rcases List.mem_append.mp hp with hq | hq
    · exact lt_trans (h3 p hq) (Nat.lt_succ_self _)
    · simp only [List.mem_singleton] at hq
      subst hq
      exact Nat.lt_succ_self _

theorem mapSet_length_le {c : CacheSt} (key : String) (now : ℤ) (data : List Line) :
    (mapSet c.entries key ⟨now, data, c.ctr⟩).length ≤ c.entries.length + 1 := by
  unfold mapSet
  by_cases hk : mapHas c.entries key
  · rw [if_pos hk]; simp
  · rw [if_neg hk]; simp

theorem cacheInv_cacheSet {c : CacheSt} (h : CacheInv c) (now : ℤ)
    (key : String) (data : List Line) :
    CacheInv (cacheSet now key data c) := by
  have hpw := mapSet_pairwise h key now data
  have hlen := mapSet_length_le (c := c) key now data
  have hltn : ∀ p ∈ mapSet c.entries key ⟨now, data, c.ctr⟩,
      p.2.ghostIns < (if mapHas c.entries key then c.ctr else c.ctr + 1) := by
    by_cases hk : mapHas c.entries key
    · rw [if_pos hk]
      intro p hp
      rw [mapSet, if_pos hk] at hp
      obtain ⟨q, hq, rfl⟩ := List.mem_map.mp hp
      have := h.2.2 q hq
      split <;> simpa using this
    · rw [if_neg hk]
      exact mapSet_ghost_lt h key now data
  have hlen2 : (mapSet c.entries key ⟨now, data, c.ctr⟩).length ≤ SST.CACHE_MAX + 1 :=
    le_trans hlen (Nat.succ_le_succ h.1)
  unfold cacheSet
  dsimp only
  split
  · rename_i hgt
    cases hE : mapSet c.entries key ⟨now, data, c.ctr⟩ with
    | nil => rw [hE] at hgt; simp at hgt
    | cons p rest =>
      rw [hE] at hpw hltn hlen2
      simp only [List.head?_cons]
      have hdel : mapDelete (p :: rest) p.1 = rest.filter (fun q => !(q.1 == p.1)) := by
        rw [mapDelete, List.filter_cons_of_neg (by simp)]
      refine ⟨?_, ?_, ?_⟩
      · rw [hdel]
        have h1 : rest.length + 1 ≤ SST.CACHE_MAX + 1 := by simpa using hlen2
        exact le_trans (List.length_filter_le _ _) (by omega)
      · rw [hdel]
        exact hpw.sublist ((List.filter_sublist _).trans (List.sublist_cons_self _ _))
      · rw [hdel]
        intro q hq
        exact hltn q (List.mem_cons_of_mem _ (List.mem_of_mem_filter hq))
  · rename_i hle
    refine ⟨?_, hpw, hltn⟩
    show (mapSet c.entries key ⟨now, data, c.ctr⟩).length ≤ SST.CACHE_MAX
    omega

theorem cacheInv_runCache (ops : List CacheOp) : CacheInv (runCache ops) := by
  have hinit : CacheInv ⟨[], 0⟩ := by
    refine ⟨by simp [SST.CACHE_MAX], List.Pairwise.nil, by simp⟩
  unfold runCache
  generalize hc : (⟨[], 0⟩ : CacheSt) = c0
  rw [hc] at hinit
  clear hc
  induction ops generalizing c0 with
  | nil => exact hinit
  | cons op ops ih =>
    rw [List.foldl_cons]
    apply ih
    cases op with
    | get now key => exact cacheInv_cacheGet hinit now key
    | set now key data => exact cacheInv_cacheSet hinit now key data
    | purge vid => exact cacheInv_purge hinit vid

theorem mapLookup_mapDelete_self (m : List (String × CacheEntry)) (k : String) :
    mapLookup (mapDelete m k) k = none := by
  unfold mapLookup mapDelete
  rw [Option.map_eq_none', List.find?_eq_none]
  intro x hx
  have := (List.mem_filter.mp hx).2
  simp only [Bool.not_eq_eq_eq_not, Bool.not_true, beq_eq_false_iff_ne] at this
  simp [this]

/-- C7: after every sequence of cache operations the cache holds at most
`CACHE_MAX = 500` entries; and whenever an insertion evicts an entry, the
evicted entry is the first entry of the map, whose insertion ordinal is least
among all entries of the map right after the insert — i.e. the oldest-inserted
entry still present — independent of the entries' timestamps (TTL) and of any
intermediate overwrites. -/
theorem cache_bounded_and_evicts_oldest (ops : List CacheOp) (now : ℤ)
    (key : String) (data : List Line) :
    (runCache ops).entries.length ≤ SST.CACHE_MAX ∧
    (cacheSetEvicted now key data (runCache ops)).elim True (fun q =>
      (cacheSet now key data (runCache ops)).entries =
        mapDelete (mapSet (runCache ops).entries key
          ⟨now, data, (runCache ops).ctr⟩) q.1 ∧
      (mapSet (runCache ops).entries key
          ⟨now, data, (runCache ops).ctr⟩).all
        (fun p => decide (q.2.ghostIns ≤ p.2.ghostIns)) = true) := by
  have h := cacheInv_runCache ops
  refine ⟨h.1, ?_⟩
  unfold cacheSetEvicted
  dsimp only
  split
  · rename_i hgt
    have hpw := mapSet_pairwise h key now data
    cases hE : mapSet (runCache ops).entries key ⟨now, data, (runCache ops).ctr⟩ with
    | nil => rw [hE] at hgt; simp at hgt
    | cons p rest =>
      rw [hE] at hgt hpw
      simp only [List.head?_cons, Option.elim]
      constructor
      · unfold cacheSet
        dsimp only
        rw [hE]
        rw [if_pos hgt]
        simp only [List.head?_cons]
      · rw [List.all_eq_true]
        intro x hx
        rcases List.mem_cons.mp hx with rfl | hx
        · simp
        · have := (List.pairwise_cons.mp hpw).1 x hx
          simpa using le_of_lt this
  · exact trivial

/-- C8: `cacheGet` never returns an entry whose age exceeds the TTL — any
returned data comes from an entry with `insertedAt + TTL ≥ now` — and looking
up an expired entry reports a miss and removes the entry from the cache. -/
theorem cacheGet_never_returns_expired (now : ℤ) (key : String) (c : CacheSt) :
    (∀ d, (cacheGet now key c).1 = some d →
      ∃ e, mapLookup c.entries key = some e ∧ e.data = d ∧
        now ≤ e.ts + SST.CACHE_TTL_MS) ∧
    (∀ e, mapLookup c.entries key = some e → now - e.ts > SST.CACHE_TTL_MS →
      (cacheGet now key c).1 = none ∧
      mapLookup (cacheGet now key c).2.entries key = none) := by
  unfold cacheGet
  cases hl : mapLookup c.entries key with
  | none =>
    dsimp only
    exact ⟨fun d hd => by simp at hd, fun e he _ => by simp at he⟩
  | some hit =>
    dsimp only
    by_cases hexp : now - hit.ts > SST.CACHE_TTL_MS
    · rw [if_pos hexp]
      refine ⟨fun d hd => by simp at hd, fun e he _ => ?_⟩
      injection he with h
      subst h
      exact ⟨rfl, mapLookup_mapDelete_self _ _⟩
    · rw [if_neg hexp]
      refine ⟨fun d hd => ?_, fun e he hexp' => ?_⟩
      · injection hd with h
        have hle := not_lt.mp hexp
        exact ⟨hit, rfl, h, by linarith⟩
      · injection he with h
        subst h
        exact absurd hexp' hexp

/-- A one-entry cache used to instantiate the TTL theorem. -/
def ttlCache : CacheSt := ⟨[("k", ⟨0, [⟨0, 1, "x"⟩], 0⟩)], 1⟩

theorem cacheGet_never_returns_expired_witness :
    ((cacheGet 200000 "k" ttlCache).1 = none ∧
      mapLookup (cacheGet 200000 "k" ttlCache).2.entries "k" = none) ∧
    (∃ e, mapLookup ttlCache.entries "k" = some e ∧ e.data = [⟨0, 1, "x"⟩] ∧
      (100 : ℤ) ≤ e.ts + SST.CACHE_TTL_MS) :=
  ⟨(cacheGet_never_returns_expired 200000 "k" ttlCache).2
      ⟨0, [⟨0, 1, "x"⟩], 0⟩ (by decide) (by decide),
   (cacheGet_never_returns_expired 100 "k" ttlCache).1
      [⟨0, 1, "x"⟩] (by decide)⟩

theorem jsStartsWith_append (a b : String) : jsStartsWith (a ++ b) a = true := by
  unfold jsStartsWith
  rw [List.isPrefixOf_iff_prefix, String.data_append]
  exact List.prefix_append _ _

theorem cacheKey_startsWith (m lang : String) (t : ℚ) :
    jsStartsWith (cacheKey m lang t) (m ++ "|") = true := by
  unfold cacheKey
  have : m ++ "|" ++ lang ++ "|" ++ toString t.floor
      = (m ++ "|") ++ (lang ++ "|" ++ toString t.floor) := by
    simp [String.append_assoc]
  rw [this]
  exact jsStartsWith_append _ _

theorem find?_filter_of_pred {α : Type} (q f : α → Bool)
    (h : ∀ x, q x = true → f x = true) :
    ∀ l : List α, List.find? q (l.filter f) = List.find? q l := by
  intro l
  induction l with
  | nil => rfl
  | cons x l ih =>
    by_cases hf : f x
    · rw [List.filter_cons_of_pos hf]
      by_cases hq : q x
      · rw [List.find?_cons_of_pos _ hq, List.find?_cons_of_pos _ hq]
      · rw [List.find?_cons_of_neg _ (by simpa using hq),
            List.find?_cons_of_neg _ (by simpa using hq)]
        exact ih
    · have hq : q x = false := by
        by_contra hq'
        exact hf (h x (by simpa using hq'))
      rw [List.filter_cons_of_neg (by simpa using hf),
          List.find?_cons_of_neg _ (by simp [hq])]
      exact ih

/-- C9 (corrected): after `purge(m)` every key of the form `cacheKey m lang t`
misses, and every key that does not start with `m ++ "|"` is untouched.  In
particular entries of other media ids survive whenever no other key happens to
start with `m ++ "|"` (which holds when media ids and languages contain no
`|`); the counterexample shows the caveat is needed. -/
theorem purge_scoped_by_key_delimiter (c : CacheSt) (m lang : String) (t : ℚ) :
    mapLookup (purgeByVideo m c).entries (cacheKey m lang t) = none ∧
    ∀ k, jsStartsWith k (m ++ "|") = false →
      mapLookup (purgeByVideo m c).entries k = mapLookup c.entries k := by
  constructor
  · unfold purgeByVideo mapLookup
    rw [Option.map_eq_none', List.find?_eq_none]
    intro x hx
    have hkeep := (List.mem_filter.mp hx).2
    simp only [Bool.not_eq_eq_eq_not, Bool.not_true] at hkeep
    intro hbeq
    have hxk : x.1 = cacheKey m lang t := by simpa using hbeq
    rw [hxk, cacheKey_startsWith] at hkeep
    cases hkeep
  · intro k hk
    unfold purgeByVideo mapLookup
    rw [find?_filter_of_pred (fun p => p.1 == k)
      (fun p => !(jsStartsWith p.1 (m ++ "|"))) ?_ c.entries]
    intro x hx
    have hxk : x.1 = k := by simpa using hx
    show (!(jsStartsWith x.1 (m ++ "|"))) = true
    rw [hxk, hk]
    rfl

/-- A cache holding one fresh entry for media id `"a"`, language `"b"`. -/
def delimCache : CacheSt := cacheSet 0 (cacheKey "a" "b" 0) [⟨0, 1, "x"⟩] ⟨[], 0⟩

/-- The engine right before a context change away from media id `"a|b"`. -/
def delimSys : Sys := { initSys (some "a|b") with cache := delimCache }

/-- C9 counterexample: a context change away from media id `"a|b"` deletes the
fresh cache entry of the different media id `"a"` (key `"a|b|0"` for media
`"a"`, language `"b"`, bucket `0` starts with `"a|b|"`), so an entry of
another media id is not untouched. -/
theorem purge_crosses_media_boundary :
    (cacheGet 0 (cacheKey "a" "b" 0) delimSys.cache).1 = some [⟨0, 1, "x"⟩] ∧
    "a" ≠ "a|b" ∧
    (step delimSys (Ev.urlChanged (some "vid2"))).videoId = some "vid2" ∧
    mapLookup (step delimSys (Ev.urlChanged (some "vid2"))).cache.entries
      (cacheKey "a" "b" 0) = none := by
  decide

/-- A cache holding entries for the media ids `"v"` and `"w"`. -/
def twoMediaCache : CacheSt :=
  ⟨[("v|en|0", ⟨0, [], 0⟩), ("w|en|0", ⟨0, [], 1⟩)], 2⟩

theorem purge_scoped_by_key_delimiter_witness :
    mapLookup (purgeByVideo "v" twoMediaCache).entries (cacheKey "v" "en" 0) = none ∧
    mapLookup (purgeByVideo "v" twoMediaCache).entries "w|en|0"
      = mapLookup twoMediaCache.entries "w|en|0" :=
  ⟨(purge_scoped_by_key_delimiter twoMediaCache "v" "en" 0).1,
   (purge_scoped_by_key_delimiter twoMediaCache "v" "en" 0).2 "w|en|0" (by decide)⟩

@[simp] theorem setState_mode (m : Mode) (s : Sys) : (setState m s).mode = m := by
  unfold setState; split <;> simp_all

@[simp] theorem setState_enabled (m : Mode) (s : Sys) :
    (setState m s).enabled = s.enabled := by unfold setState; split <;> rfl

@[simp] theorem setState_language (m : Mode) (s : Sys) :
    (setState m s).language = s.language := by unfold setState; split <;> rfl

@[simp] theorem setState_hint (m : Mode) (s : Sys) :
    (setState m s).hint = s.hint := by unfold setState; split <;> rfl

@[simp] theorem setState_videoId (m : Mode) (s : Sys) :
    (setState m s).videoId = s.videoId := by unfold setState; split <;> rfl

@[simp] theorem setState_attached (m : Mode) (s : Sys) :
    (setState m s).attached = s.attached := by unfold setState; split <;> rfl

@[simp] theorem setState_lastTickAt (m : Mode) (s : Sys) :
    (setState m s).lastTickAt = s.lastTickAt := by unfold setState; split <;> rfl

@[simp] theorem setState_inflight (m : Mode) (s : Sys) :
    (setState m s).inflight = s.inflight := by unfold setState; split <;> rfl

@[simp] theorem setState_reqs (m : Mode) (s : Sys) :
    (setState m s).reqs = s.reqs := by unfold setState; split <;> rfl

@[simp] theorem setState_cache (m : Mode) (s : Sys) :
    (setState m s).cache = s.cache := by unfold setState; split <;> rfl

@[simp] theorem setState_renders (m : Mode) (s : Sys) :
    (setState m s).renders = s.renders := by unfold setState; split <;> rfl

@[simp] theorem setState_recovery (m : Mode) (s : Sys) :
    (setState m s).recovery = s.recovery := by unfold setState; split <;> rfl

@[simp] theorem setState_attachPending (m : Mode) (s : Sys) :
    (setState m s).attachPending = s.attachPending := by unfold setState; split <;> rfl

@[simp] theorem abortInflight_inflight (s : Sys) :
    (abortInflight s).inflight = none := by
  unfold abortInflight; split <;> simp_all

@[simp] theorem abortInflight_mode (s : Sys) : (abortInflight s).mode = s.mode := by
  unfold abortInflight; split <;> rfl

@[simp] theorem abortInflight_enabled (s : Sys) :
    (abortInflight s).enabled = s.enabled := by unfold abortInflight; split <;> rfl

@[simp] theorem abortInflight_language (s : Sys) :
    (abortInflight s).language = s.language := by unfold abortInflight; split <;> rfl

@[simp] theorem abortInflight_hint (s : Sys) :
    (abortInflight s).hint = s.hint := by unfold abortInflight; split <;> rfl

@[simp] theorem abortInflight_videoId (s : Sys) :
    (abortInflight s).videoId = s.videoId := by unfold abortInflight; split <;> rfl

@[simp] theorem abortInflight_attached (s : Sys) :
    (abortInflight s).attached = s.attached := by unfold abortInflight; split <;> rfl

@[simp] theorem abortInflight_lastTickAt (s : Sys) :
    (abortInflight s).lastTickAt = s.lastTickAt := by unfold abortInflight; split <;> rfl

@[simp] theorem abortInflight_cache (s : Sys) :
    (abortInflight s).cache = s.cache := by unfold abortInflight; split <;> rfl

@[simp] theorem abortInflight_renders (s : Sys) :
    (abortInflight s).renders = s.renders := by unfold abortInflight; split <;> rfl

@[simp] theorem abortInflight_recovery (s : Sys) :
    (abortInflight s).recovery = s.recovery := by unfold abortInflight; split <;> rfl

@[simp] theorem abortInflight_attachPending (s : Sys) :
    (abortInflight s).attachPending = s.attachPending := by
  unfold abortInflight; split <;> rfl

theorem abortMark_length (reqs : List Request) (j : ℕ) :
    (abortMark reqs j).length = reqs.length := by
  unfold abortMark; split
  · split
    · exact List.length_set _ _ _
    · rfl
  · rfl

@[simp] theorem abortInflight_reqs_length (s : Sys) :
    (abortInflight s).reqs.length = s.reqs.length := by
  unfold abortInflight; split
  · rfl
  · exact abortMark_length _ _

@[simp] theorem setCaptionText_mode (txt : String) (s : Sys) :
    (setCaptionText txt s).mode = s.mode := rfl

@[simp] theorem setCaptionText_reqs (txt : String) (s : Sys) :
    (setCaptionText txt s).reqs = s.reqs := rfl

@[simp] theorem setCaptionText_inflight (txt : String) (s : Sys) :
    (setCaptionText txt s).inflight = s.inflight := rfl

@[simp] theorem setCaptionText_cache (txt : String) (s : Sys) :
    (setCaptionText txt s).cache = s.cache := rfl

@[simp] theorem setCaptionText_renders (txt : String) (s : Sys) :
    (setCaptionText txt s).renders = txt :: s.renders := rfl

@[simp] theorem setCaptionText_language (txt : String) (s : Sys) :
    (setCaptionText txt s).language = s.language := rfl

@[simp] theorem setCaptionText_hint (txt : String) (s : Sys) :
    (setCaptionText txt s).hint = s.hint := rfl

@[simp] theorem setCaptionText_recovery (txt : String) (s : Sys) :
    (setCaptionText txt s).recovery = s.recovery := rfl

@[simp] theorem setCaptionText_enabled (txt : String) (s : Sys) :
    (setCaptionText txt s).enabled = s.enabled := rfl

@[simp] theorem setCaptionText_videoId (txt : String) (s : Sys) :
    (setCaptionText txt s).videoId = s.videoId := rfl

@[simp] theorem setCaptionText_attached (txt : String) (s : Sys) :
    (setCaptionText txt s).attached = s.attached := rfl

@[simp] theorem setCaptionText_lastTickAt (txt : String) (s : Sys) :
    (setCaptionText txt s).lastTickAt = s.lastTickAt := rfl

@[simp] theorem setCaptionText_attachPending (txt : String) (s : Sys) :
    (setCaptionText txt s).attachPending = s.attachPending := rfl

@[simp] theorem stopAll_mode (s : Sys) : (stopAll s).mode = Mode.idle := by
  unfold stopAll removeOverlayAndListeners; simp

@[simp] theorem stopAll_language (s : Sys) : (stopAll s).language = s.language := by
  unfold stopAll removeOverlayAndListeners; simp

@[simp] theorem stopAll_hint (s : Sys) : (stopAll s).hint = s.hint := by
  unfold stopAll removeOverlayAndListeners; simp

@[simp] theorem stopAll_enabled (s : Sys) : (stopAll s).enabled = s.enabled := by
  unfold stopAll removeOverlayAndListeners; simp

@[simp] theorem stopAll_inflight (s : Sys) : (stopAll s).inflight = none := by
  unfold stopAll removeOverlayAndListeners; simp

theorem tryStartActive_language (s : Sys) :
    (tryStartActive s).language = s.language := by
  unfold tryStartActive; split <;> simp

theorem tryStartActive_hint (s : Sys) : (tryStartActive s).hint = s.hint := by
  unfold tryStartActive; split <;> simp

theorem settingsApply_language (s : Sys) :
    (settingsApply s).language = s.language := by
  unfold settingsApply
  split
  · exact tryStartActive_language _
  · split
    · simp
    · rfl

theorem settingsApply_hint (s : Sys) : (settingsApply s).hint = s.hint := by
  unfold settingsApply
  split
  · exact tryStartActive_hint _
  · split
    · simp
    · rfl

/-- C10: a `SETTINGS_CHANGED` or `START_TRANSLATION` command carrying an
empty-string language or hint keeps the previous value of that field — the
`|| state.field` fallback means neither field can be reset to the empty string
through the command channel. -/
theorem empty_settings_keep_previous_values (s : Sys) (en : Bool)
    (nv : Option String) :
    ((step s (Ev.settingsChanged en (some "") (some ""))).language = s.language ∧
     (step s (Ev.settingsChanged en (some "") (some ""))).hint = s.hint) ∧
    ((step s (Ev.startTranslation (some "") (some "") nv)).language = s.language ∧
     (step s (Ev.startTranslation (some "") (some "") nv)).hint = s.hint) := by
  constructor
  · show ((onSettingsChanged en (some "") (some "") s).language = s.language ∧
      (onSettingsChanged en (some "") (some "") s).hint = s.hint)
    unfold onSettingsChanged
    rw [settingsApply_language, settingsApply_hint]
    simp [orKeep]
  · show ((onStartTranslation (some "") (some "") nv s).language = s.language ∧
      (onStartTranslation (some "") (some "") nv s).hint = s.hint)
    unfold onStartTranslation
    rw [tryStartActive_language, tryStartActive_hint]
    simp [orKeep]

/-- C6: for a window sorted by start time with non-overlapping lines
(`a.end ≤ b.start` pairwise, each line with `start ≤ end`), `renderFromWindow`
renders the text of the line with `start ≤ t < end` if one exists; otherwise
the text of a line with the smallest `start − t` among lines with
`0 < start − t ≤ CHUNK_AHEAD_SEC`; otherwise the empty string. -/
theorem renderFromWindow_line_selection (lines : List Line) (t : ℚ)
    (hsep : lines.Pairwise (fun a b => a.«end» ≤ b.start))
    (hwf : ∀ ln ∈ lines, ln.start ≤ ln.«end») :
    (∀ ln ∈ lines, ln.start ≤ t → t < ln.«end» →
        renderFromWindow lines t = ln.text) ∧
    ((∀ ln ∈ lines, ¬(ln.start ≤ t ∧ t < ln.«end»)) →
      (∃ ln ∈ lines, 0 < ln.start - t ∧ ln.start - t ≤ SST.CHUNK_AHEAD_SEC) →
      ∃ ln ∈ lines, (0 < ln.start - t ∧ ln.start - t ≤ SST.CHUNK_AHEAD_SEC) ∧
        (∀ ln' ∈ lines, 0 < ln'.start - t → ln'.start - t ≤ SST.CHUNK_AHEAD_SEC →
          ln.start - t ≤ ln'.start - t) ∧
        renderFromWindow lines t = ln.text) ∧
    ((∀ ln ∈ lines, ¬(ln.start ≤ t ∧ t < ln.«end») ∧
        ¬(0 < ln.start - t ∧ ln.start - t ≤ SST.CHUNK_AHEAD_SEC)) →
      renderFromWindow lines t = "") := by
  refine ⟨?_, ?_, ?_⟩
  · intro ln hmem hs he
    have hsome : (lines.find?
        (fun ln => decide (t ≥ ln.start) && decide (t < ln.«end»))).isSome := by
      rw [List.find?_isSome]
      refine ⟨ln, hmem, ?_⟩
      simp only [Bool.and_eq_true, decide_eq_true_eq, ge_iff_le]
      exact ⟨hs, he⟩
    obtain ⟨c, hc⟩ := Option.isSome_iff_exists.mp hsome
    obtain ⟨hpc, as, bs, hxs, hprev⟩ := List.find?_eq_some.mp hc
    have hcs : c.start ≤ t ∧ t < c.«end» := by
      simpa only [Bool.and_eq_true, decide_eq_true_eq, ge_iff_le] using hpc
    have hctext : renderFromWindow lines t = c.text := by
      unfold renderFromWindow
      rw [hc]
    rw [hctext]
    rw [hxs] at hsep hmem
    rcases List.mem_append.mp hmem with hin | hin
    · have := hprev ln hin
      simp only [Bool.not_eq_eq_eq_not, Bool.not_true, Bool.and_eq_false_iff,
        decide_eq_false_iff_not, ge_iff_le, not_le, not_lt] at this
      rcases this with h | h
      · exact absurd hs (by linarith)
      · exact absurd he (by linarith)
    · rcases List.mem_cons.mp hin with rfl | hin
      · rfl
      · have hR : c.«end» ≤ ln.start :=
          (List.pairwise_cons.mp (List.pairwise_append.mp hsep).2.1).1 ln hin
        have hcontra : t < t := lt_of_lt_of_le (lt_of_lt_of_le hcs.2 hR) hs
        exact absurd hcontra (lt_irrefl t)
  · intro hnospan hex
    have hnone1 : lines.find?
        (fun ln => decide (t ≥ ln.start) && decide (t < ln.«end»)) = none := by
      rw [List.find?_eq_none]
      intro x hx
      have := hnospan x hx
      simp only [Bool.and_eq_true, decide_eq_true_eq, ge_iff_le, not_and]
      intro h1 h2
      exact this ⟨h1, h2⟩
    obtain ⟨ln0, hmem0, hcand0⟩ := hex
    have hsome : (lines.find?
        (fun ln => decide (ln.start - t ≤ SST.CHUNK_AHEAD_SEC) &&
          decide (ln.start > t))).isSome := by
      rw [List.find?_isSome]
      refine ⟨ln0, hmem0, ?_⟩
      simp only [Bool.and_eq_true, decide_eq_true_eq, gt_iff_lt]
      exact ⟨hcand0.2, by linarith [hcand0.1]⟩
    obtain ⟨c, hc⟩ := Option.isSome_iff_exists.mp hsome
    obtain ⟨hpc, as, bs, hxs, hprev⟩ := List.find?_eq_some.mp hc
    have hcand : 0 < c.start - t ∧ c.start - t ≤ SST.CHUNK_AHEAD_SEC := by
      simp only [Bool.and_eq_true, decide_eq_true_eq, gt_iff_lt] at hpc
      exact ⟨by linarith [hpc.2], hpc.1⟩
    have hcmem : c ∈ lines := List.mem_of_find?_eq_some hc
    refine ⟨c, hcmem, hcand, ?_, ?_⟩
    · intro ln' hmem' h1 h2
      rw [hxs] at hsep hmem'
      rcases List.mem_append.mp hmem' with hin | hin
      · have := hprev ln' hin
        simp only [Bool.not_eq_eq_eq_not, Bool.not_true, Bool.and_eq_false_iff,
          decide_eq_false_iff_not, gt_iff_lt, not_le, not_lt] at this
        rcases this with h | h
        · exact absurd h2 (by linarith)
        · exact absurd h1 (by linarith)
      · rcases List.mem_cons.mp hin with rfl | hin
        · exact le_refl _
        · have hR : c.«end» ≤ ln'.start :=
            (List.pairwise_cons.mp (List.pairwise_append.mp hsep).2.1).1 ln' hin
          have := hwf c hcmem
          linarith
    · unfold renderFromWindow
      rw [hnone1, hc]
  · intro hall
    have hnone1 : lines.find?
        (fun ln => decide (t ≥ ln.start) && decide (t < ln.«end»)) = none := by
      rw [List.find?_eq_none]
      intro x hx
      have := (hall x hx).1
      simp only [Bool.and_eq_true, decide_eq_true_eq, ge_iff_le, not_and]
      intro h1 h2
      exact this ⟨h1, h2⟩
    have hnone2 : lines.find?
        (fun ln => decide (ln.start - t ≤ SST.CHUNK_AHEAD_SEC) &&
          decide (ln.start > t)) = none := by
      rw [List.find?_eq_none]
      intro x hx
      have := (hall x hx).2
      simp only [Bool.and_eq_true, decide_eq_true_eq, gt_iff_lt, not_and]
      intro h1 h2
      exact this ⟨by linarith, h1⟩
    unfold renderFromWindow
    rw [hnone1, hnone2]

/-- The example window of the specification's test scenario. -/
def exWindow : List Line := [⟨10, 13, "A"⟩, ⟨13, 16, "B"⟩]

/-- A window whose only line starts 1.5 s after t = 17 (within lookahead). -/
def gapWindow : List Line := [⟨18.5, 21, "C"⟩]

/-- A window whose only line starts 3 s after t = 20 (beyond lookahead). -/
def farWindow : List Line := [⟨23, 25, "C"⟩]

section
attribute [local semireducible] Rat.sub Rat.add Rat.mul Rat.inv Rat.ofScientific

theorem renderFromWindow_line_selection_witness :
    renderFromWindow exWindow 11 = "A" ∧
    renderFromWindow exWindow 13 = "B" ∧
    (∃ ln ∈ gapWindow,
      (0 < ln.start - 17 ∧ ln.start - 17 ≤ SST.CHUNK_AHEAD_SEC) ∧
      (∀ ln' ∈ gapWindow, 0 < ln'.start - 17 →
        ln'.start - 17 ≤ SST.CHUNK_AHEAD_SEC →
        ln.start - 17 ≤ ln'.start - 17) ∧
      renderFromWindow gapWindow 17 = ln.text) ∧
    renderFromWindow farWindow 20 = "" :=
  ⟨(renderFromWindow_line_selection exWindow 11 (by decide) (by decide)).1
      ⟨10, 13, "A"⟩ (by decide) (by decide) (by decide),
   (renderFromWindow_line_selection exWindow 13 (by decide) (by decide)).1
      ⟨13, 16, "B"⟩ (by decide) (by decide) (by decide),
   (renderFromWindow_line_selection gapWindow 17 (by decide) (by decide)).2.1
      (by decide) (by decide),
   (renderFromWindow_line_selection farWindow 20 (by decide) (by decide)).2.2
      (by decide)⟩

end

/-- Engine invariant: every request with a pending network stage is the one
`state.inflight` points to (so at most one is live), and nothing is live while
the engine is idle. -/
def SysInv (s : Sys) : Prop :=
  (∀ i, LiveAt s i → s.inflight = some i) ∧
  (s.mode = Mode.idle → ∀ i, ¬ LiveAt s i)

theorem liveAt_congr {s s' : Sys} (h : s'.reqs = s.reqs) (i : ℕ) :
    LiveAt s' i ↔ LiveAt s i := by
  unfold LiveAt
  rw [h]

theorem sysInv_congr {s s' : Sys} (hreqs : s'.reqs = s.reqs)
    (hinf : s'.inflight = s.inflight) (hmode : s'.mode = s.mode)
    (h : SysInv s) : SysInv s' := by
  constructor
  · intro i hl
    rw [hinf]
    exact h.1 i ((liveAt_congr hreqs i).mp hl)
  · intro hm i hl
    rw [hmode] at hm
    exact h.2 hm i ((liveAt_congr hreqs i).mp hl)

theorem abortMark_getElem_ne (reqs : List Request) (j i : ℕ) (hne : i ≠ j) :
    (abortMark reqs j)[i]? = reqs[i]? := by
  unfold abortMark
  split
  · split
    · exact List.getElem?_set_ne hne.symm
    · rfl
  · rfl

theorem abortMark_not_live (reqs : List Request) (j : ℕ) :
    ¬ ∃ r, (abortMark reqs j)[j]? = some r ∧ r.isLive := by
  rintro ⟨r', hget, hlive⟩
  unfold abortMark at hget
  revert hget
  split
  · rename_i r0 hr0
    split
    · rename_i hlive0
      have hj : j < reqs.length := by
        by_contra hj
        rw [List.getElem?_eq_none (by omega)] at hr0
        cases hr0
      rw [List.getElem?_set_self hj]
      intro hget
      injection hget with h
      subst h
      simp [Request.isLive] at hlive
    · rename_i hnl
      intro hget
      rw [hget] at hr0
      injection hr0 with h
      subst h
      exact hnl hlive
  · rename_i hr0
    intro hget
    rw [hget] at hr0
    cases hr0

theorem abortInflight_not_live {s : Sys}
    (h1 : ∀ i, LiveAt s i → s.inflight = some i) :
    ∀ i, ¬ LiveAt (abortInflight s) i := by
  intro i hl
  unfold abortInflight at hl
  revert hl
  split
  · rename_i hinf
    intro hl
    rw [hinf] at h1
    exact Option.noConfusion (h1 i hl)
  · rename_i j hinf
    intro hl
    obtain ⟨r, hget, hlive⟩ := hl
    by_cases hij : i = j
    · subst hij
      exact abortMark_not_live s.reqs i ⟨r, hget, hlive⟩
    · rw [abortMark_getElem_ne s.reqs j i hij] at hget
      have := h1 i ⟨r, hget, hlive⟩
      rw [hinf] at this
      injection this with h
      exact hij h.symm

@[simp] theorem hydrateCatch_true (s : Sys) : hydrateCatch true s = s := rfl

@[simp] theorem hydrateCatch_reqs (b : Bool) (s : Sys) :
    (hydrateCatch b s).reqs = s.reqs := by
  unfold hydrateCatch; split <;> simp

@[simp] theorem hydrateCatch_inflight (b : Bool) (s : Sys) :
    (hydrateCatch b s).inflight = s.inflight := by
  unfold hydrateCatch; split <;> simp

@[simp] theorem hydrateCatch_cache (b : Bool) (s : Sys) :
    (hydrateCatch b s).cache = s.cache := by
  unfold hydrateCatch; split <;> simp

@[simp] theorem hydrateCatch_false_mode (s : Sys) :
    (hydrateCatch false s).mode = Mode.error := by
  unfold hydrateCatch; simp

@[simp] theorem hydrateCatch_false_renders (s : Sys) :
    (hydrateCatch false s).renders = "" :: s.renders := by
  unfold hydrateCatch; simp

@[simp] theorem hydrateCatch_false_recovery (s : Sys) :
    (hydrateCatch false s).recovery = s.recovery + 1 := by
  unfold hydrateCatch; simp

@[simp] theorem startRequest_mode (ckey : String) (t : ℚ) (s : Sys) :
    (startRequest ckey t s).mode = s.mode := by
  unfold startRequest; simp

@[simp] theorem tickHydrate_mode (dn : ℤ) (t : ℚ) (vid : String) (s : Sys) :
    (tickHydrate dn t vid s).mode = s.mode := by
  unfold tickHydrate
  split <;> simp

@[simp] theorem onTimeTick_mode (pn : ℕ) (dn : ℤ) (t : ℚ) (ad : Bool) (s : Sys) :
    (onTimeTick pn dn t ad s).mode = s.mode := by
  unfold onTimeTick
  split
  · rfl
  · split
    · rfl
    · split
      · rfl
      · split <;> simp

@[simp] theorem tickHydrate_lastTickAt (dn : ℤ) (t : ℚ) (vid : String) (s : Sys) :
    (tickHydrate dn t vid s).lastTickAt = s.lastTickAt := by
  unfold tickHydrate
  split
  · simp
  · unfold startRequest; simp

theorem sysInv_of_no_live {s : Sys} (h : ∀ i, ¬ LiveAt s i) : SysInv s :=
  ⟨fun i hl => absurd hl (h i), fun _ i => h i⟩

theorem sysInv_of_not_idle {s' s : Sys} (hreqs : s'.reqs = s.reqs)
    (hinf : s'.inflight = s.inflight) (hmode : s'.mode ≠ Mode.idle)
    (h1 : ∀ i, LiveAt s i → s.inflight = some i) : SysInv s' := by
  refine ⟨fun i hl => ?_, fun hm => absurd hm hmode⟩
  rw [hinf]
  exact h1 i ((liveAt_congr hreqs i).mp hl)

theorem stopAll_not_live {s : Sys}
    (h1 : ∀ i, LiveAt s i → s.inflight = some i) :
    ∀ i, ¬ LiveAt (stopAll s) i := by
  intro i hl
  have h1' : ∀ i, LiveAt (setState Mode.idle s) i →
      (setState Mode.idle s).inflight = some i := by
    intro i hl
    rw [setState_inflight]
    exact h1 i ((liveAt_congr (setState_reqs _ _) i).mp hl)
  exact abortInflight_not_live h1' i ((liveAt_congr rfl i).mp hl)

theorem sysInv_stopAll {s : Sys}
    (h1 : ∀ i, LiveAt s i → s.inflight = some i) : SysInv (stopAll s) :=
  sysInv_of_no_live (stopAll_not_live h1)

theorem tryStartActive_reqs (s : Sys) : (tryStartActive s).reqs = s.reqs := by
  unfold tryStartActive; split <;> simp

theorem tryStartActive_inflight (s : Sys) :
    (tryStartActive s).inflight = s.inflight := by
  unfold tryStartActive; split <;> simp

theorem sysInv_tryStartActive {s : Sys} (h : SysInv s) :
    SysInv (tryStartActive s) := by
  unfold tryStartActive
  split
  · exact h
  · refine ⟨fun i hl => ?_, fun hm => ?_⟩
    · have : LiveAt (setState Mode.active s) i := by
        exact (liveAt_congr (by simp) i).mp hl
      have := h.1 i ((liveAt_congr (setState_reqs _ _) i).mp this)
      simpa using this
    · simp at hm

theorem sysInv_startRequest {s : Sys} (h : SysInv s)
    (hmode : s.mode ≠ Mode.idle) (ckey : String) (t : ℚ) :
    SysInv (startRequest ckey t s) := by
  have hdead := abortInflight_not_live h.1
  unfold startRequest
  refine ⟨fun i hl => ?_, fun hm => ?_⟩
  · obtain ⟨r, hget, hlive⟩ := hl
    rcases lt_trichotomy i (abortInflight s).reqs.length with hlt | heq | hgt
    · rw [List.getElem?_append_left hlt] at hget
      exact absurd ⟨r, hget, hlive⟩ (hdead i)
    · subst heq
      rfl
    · rw [List.getElem?_append_right (by omega)] at hget
      rw [List.getElem?_eq_none (by simp only [List.length_singleton]; omega)] at hget
      cases hget
  · exfalso
    apply hmode
    have : ({ abortInflight s with
        reqs := (abortInflight s).reqs ++ [⟨ReqStage.chunks, ckey, t⟩],
        inflight := some (abortInflight s).reqs.length } : Sys).mode
        = s.mode := by simp
    rw [← this]
    exact hm

theorem sysInv_tickHydrate {s : Sys} (h : SysInv s)
    (hmode : s.mode ≠ Mode.idle) (dn : ℤ) (t : ℚ) (vid : String) :
    SysInv (tickHydrate dn t vid s) := by
  unfold tickHydrate
  split
  · exact sysInv_congr (by simp) (by simp) (by simp) h
  · rename_i c heq
    have h' : SysInv ({ s with cache := c } : Sys) := sysInv_congr rfl rfl rfl h
    exact sysInv_startRequest h' hmode _ _

theorem sysInv_onTimeTick {s : Sys} (h : SysInv s) (pn : ℕ) (dn : ℤ)
    (t : ℚ) (ad : Bool) : SysInv (onTimeTick pn dn t ad s) := by
  unfold onTimeTick
  split
  · exact h
  · rename_i hguard
    push_neg at hguard
    split
    · exact h
    · split
      · exact sysInv_congr rfl rfl rfl h
      · split
        · exact sysInv_congr (by simp) (by simp) (by simp) h
        · have h' : SysInv ({ s with lastTickAt := pn } : Sys) :=
            sysInv_congr rfl rfl rfl h
          exact sysInv_tickHydrate h' (by simp [hguard.2]) dn t _


theorem set_not_live {reqs : List Request} {inf : Option ℕ}
    (h1 : ∀ (j : ℕ) (r : Request), reqs[j]? = some r → r.isLive → inf = some j)
    {i : ℕ} (hinfi : inf = some i) {r' : Request} (hr' : ¬ r'.isLive) :
    ∀ (j : ℕ) (q : Request), (reqs.set i r')[j]? = some q → ¬ q.isLive := by
  intro j q hget hlive
  by_cases hij : j = i
  · subst hij
    have hjlt : j < reqs.length := by
      by_contra hc
      rw [List.getElem?_eq_none (by rw [List.length_set]; omega)] at hget
      cases hget
    rw [List.getElem?_set_self hjlt] at hget
    injection hget with hh
    subst hh
    exact hr' hlive
  · rw [List.getElem?_set_ne (fun hh => hij hh.symm)] at hget
    have := h1 j q hget hlive
    rw [hinfi] at this
    injection this with hh
    exact hij hh.symm

theorem sysInv_settleNet {s : Sys} (h : SysInv s) (i : ℕ) (dn : ℤ)
    (o : Outcome) : SysInv (settleNet i dn o s) := by
  have h1' : ∀ (j : ℕ) (r : Request), s.reqs[j]? = some r → r.isLive →
      s.inflight = some j :=
    fun j r hget hlive => h.1 j ⟨r, hget, hlive⟩
  unfold settleNet
  split
  · exact h
  · rename_i r hr
    split
    · exact sysInv_congr (by simp) (by simp) (by simp) h
    · exact h
    · rename_i hstage
      have hilive : LiveAt s i := ⟨r, hr, Or.inl hstage⟩
      have hinfi := h.1 i hilive
      split
      · refine ⟨fun j hl => ?_, fun hm => (h.2 hm i hilive).elim⟩
        obtain ⟨r', hget, hlive⟩ := hl
        by_cases hij : j = i
        · subst hij
          rfl
        · have hget' : (s.reqs.set i { r with stage := ReqStage.translate })[j]?
              = some r' := hget
          rw [List.getElem?_set_ne (fun hh => hij hh.symm)] at hget'
          have := h1' j r' hget' hlive
          rw [hinfi] at this
          injection this with hh
          exact absurd hh.symm hij
      · apply sysInv_of_no_live
        rintro j ⟨q, hget, hlive⟩
        have hget' : (s.reqs.set i { r with stage := ReqStage.settled })[j]?
            = some q := by
          have hre := hydrateCatch_reqs false
            ({ s with reqs := s.reqs.set i { r with stage := ReqStage.settled } } : Sys)
          rw [hre] at hget
          exact hget
        exact set_not_live h1' hinfi (by simp [Request.isLive]) j q hget' hlive
    · rename_i hstage
      have hilive : LiveAt s i := ⟨r, hr, Or.inr hstage⟩
      have hinfi := h.1 i hilive
      split
      · apply sysInv_of_no_live
        rintro j ⟨q, hget, hlive⟩
        have hget' : (s.reqs.set i { r with stage := ReqStage.settled })[j]?
            = some q := hget
        exact set_not_live h1' hinfi (by simp [Request.isLive]) j q hget' hlive
      · apply sysInv_of_no_live
        rintro j ⟨q, hget, hlive⟩
        have hget' : (s.reqs.set i { r with stage := ReqStage.settled })[j]?
            = some q := by
          have hre := hydrateCatch_reqs false
            ({ s with reqs := s.reqs.set i { r with stage := ReqStage.settled } } : Sys)
          rw [hre] at hget
          exact hget
        exact set_not_live h1' hinfi (by simp [Request.isLive]) j q hget' hlive

theorem resetForNavigation_reqs (nv : Option String) (s : Sys) :
    (resetForNavigation nv s).reqs = (stopAll s).reqs := by
  unfold resetForNavigation
  split <;> rfl

theorem resetForNavigation_not_live {s : Sys}
    (h1 : ∀ i, LiveAt s i → s.inflight = some i) (nv : Option String) :
    ∀ i, ¬ LiveAt (resetForNavigation nv s) i := fun i hl =>
  stopAll_not_live h1 i ((liveAt_congr (resetForNavigation_reqs nv s) i).mp hl)

theorem sysInv_onUrlMaybeChanged {s : Sys} (h : SysInv s) (nv : Option String) :
    SysInv (onUrlMaybeChanged nv s) := by
  unfold onUrlMaybeChanged
  split
  · exact h
  · have hreset := sysInv_of_no_live (resetForNavigation_not_live h.1 nv)
    split
    · exact sysInv_tryStartActive hreset
    · exact hreset

theorem sysInv_settingsApply {s : Sys} (h : SysInv s) :
    SysInv (settingsApply s) := by
  unfold settingsApply
  split
  · exact sysInv_tryStartActive h
  · split
    · exact sysInv_stopAll h.1
    · exact h

theorem sysInv_onSettingsChanged {s : Sys} (h : SysInv s) (en : Bool)
    (l hh : Option String) : SysInv (onSettingsChanged en l hh s) :=
  sysInv_settingsApply (sysInv_congr rfl rfl rfl h)

theorem sysInv_onStartTranslation {s : Sys} (h : SysInv s)
    (l hh nv : Option String) : SysInv (onStartTranslation l hh nv s) :=
  sysInv_tryStartActive (sysInv_congr rfl rfl rfl h)

theorem sysInv_step {s : Sys} (h : SysInv s) (e : Ev) : SysInv (step s e) := by
  cases e with
  | timeUpdate pn dn t ad => exact sysInv_onTimeTick h pn dn t ad
  | seeked pn dn t ad => exact sysInv_onTimeTick h pn dn t ad
  | rateChange pn dn t ad =>
    show SysInv (if s.attached = true then
      onTimeTick pn dn t ad { s with lastTickAt := 0 } else s)
    split
    · have h0 : SysInv ({ s with lastTickAt := 0 } : Sys) :=
        sysInv_congr rfl rfl rfl h
      exact sysInv_onTimeTick h0 pn dn t ad
    · exact h
  | mediaPlay =>
    show SysInv (if s.attached = true then setCaptionText "" s else s)
    split
    · exact sysInv_congr (by simp) (by simp) (by simp) h
    · exact h
  | mediaPause =>
    show SysInv (if s.attached = true then setCaptionText "" s else s)
    split
    · exact sysInv_congr (by simp) (by simp) (by simp) h
    · exact h
  | netSettle i dn o => exact sysInv_settleNet h i dn o
  | recoveryTimer =>
    show SysInv (if s.recovery = 0 then s
      else setState Mode.active { s with recovery := s.recovery - 1 })
    split
    · exact h
    · exact sysInv_of_not_idle (by simp) (by simp) (by simp) h.1
  | attachOk pn dn t ad =>
    show SysInv (if s.attachPending = true then
      onTimeTick pn dn t ad
        { s with attachPending := false, attached := true, lastTickAt := 0 }
      else s)
    split
    · have h0 : SysInv
          ({ s with attachPending := false, attached := true,
                    lastTickAt := 0 } : Sys) :=
        sysInv_congr rfl rfl rfl h
      exact sysInv_onTimeTick h0 pn dn t ad
    · exact h
  | attachFail =>
    show SysInv (if s.attachPending = true then
      setState Mode.error { s with attachPending := false } else s)
    split
    · exact sysInv_of_not_idle (by simp) (by simp) (by simp) h.1
    · exact h
  | settingsChanged en l hh => exact sysInv_onSettingsChanged h en l hh
  | startTranslation l hh nv => exact sysInv_onStartTranslation h l hh nv
  | stopTranslation => exact sysInv_stopAll h.1
  | urlChanged nv => exact sysInv_onUrlMaybeChanged h nv

theorem sysInv_init (v0 : Option String) : SysInv (initSys v0) := by
  refine ⟨fun i hl => ?_, fun _ i hl => ?_⟩ <;>
  · obtain ⟨r, hget, _⟩ := hl
    rw [show (initSys v0).reqs = [] from rfl] at hget
    rw [List.getElem?_eq_none (by simp)] at hget
    cases hget

theorem sysInv_run (v0 : Option String) (evs : List Ev) :
    SysInv (run (initSys v0) evs) := by
  have hinit := sysInv_init v0
  unfold run
  generalize hc : initSys v0 = c0
  rw [hc] at hinit
  clear hc
  induction evs generalizing c0 with
  | nil => exact hinit
  | cons e evs ih =>
    rw [List.foldl_cons]
    exact ih _ (sysInv_step hinit e)

theorem settleNet_reqs_length (i : ℕ) (dn : ℤ) (o : Outcome) (s : Sys) :
    (settleNet i dn o s).reqs.length = s.reqs.length := by
  unfold settleNet
  split
  · rfl
  · split
    · simp
    · rfl
    · split
      · simp [List.length_set]
      · simp [List.length_set]
    · split
      · simp [List.length_set]
      · simp [List.length_set]

theorem stopAll_reqs_length (s : Sys) :
    (stopAll s).reqs.length = s.reqs.length := by
  show (abortInflight (setState Mode.idle s)).reqs.length = s.reqs.length
  rw [abortInflight_reqs_length, setState_reqs]

theorem settingsApply_reqs_length (s : Sys) :
    (settingsApply s).reqs.length = s.reqs.length := by
  unfold settingsApply
  split
  · rw [tryStartActive_reqs]
  · split
    · exact stopAll_reqs_length s
    · rfl

theorem onUrlMaybeChanged_reqs_length (nv : Option String) (s : Sys) :
    (onUrlMaybeChanged nv s).reqs.length = s.reqs.length := by
  unfold onUrlMaybeChanged
  split
  · rfl
  · split
    · rw [tryStartActive_reqs, resetForNavigation_reqs]
      exact stopAll_reqs_length s
    · rw [show (resetForNavigation nv s).reqs.length
          = (stopAll s).reqs.length from congrArg List.length (resetForNavigation_reqs nv s)]
      exact stopAll_reqs_length s

theorem onTimeTick_throttled {s : Sys} {pn : ℕ}
    (hth : pn - s.lastTickAt < 1000 / SST.TICK_HZ) (dn : ℤ) (t : ℚ) (ad : Bool) :
    onTimeTick pn dn t ad s = s := by
  unfold onTimeTick
  by_cases hg : s.attached = false ∨ s.mode ≠ Mode.active
  · rw [if_pos hg]
  · rw [if_neg hg, if_pos hth]

theorem startRequest_dead {s : Sys}
    (h1 : ∀ i, LiveAt s i → s.inflight = some i) (ck : String) (t : ℚ) :
    ∀ i, i < s.reqs.length → ¬ LiveAt (startRequest ck t s) i := by
  rintro i hi ⟨r, hget, hlive⟩
  have hget' : ((abortInflight s).reqs ++ [⟨ReqStage.chunks, ck, t⟩])[i]?
      = some r := hget
  rw [List.getElem?_append_left (by rw [abortInflight_reqs_length]; exact hi)] at hget'
  exact abortInflight_not_live h1 i ⟨r, hget', hlive⟩

theorem onTimeTick_dead_or_preserves {s : Sys} (h : SysInv s) (pn : ℕ)
    (dn : ℤ) (t : ℚ) (ad : Bool) :
    (onTimeTick pn dn t ad s).reqs = s.reqs ∨
    ∀ i, i < s.reqs.length → ¬ LiveAt (onTimeTick pn dn t ad s) i := by
  unfold onTimeTick
  split
  · left; rfl
  · split
    · left; rfl
    · split
      · left; rfl
      · split
        · left; simp
        · unfold tickHydrate
          split
          · left; simp
          · rename_i c heq
            right
            intro i hi
            have hY : SysInv ({ { s with lastTickAt := pn } with cache := c } : Sys) :=
              sysInv_congr rfl rfl rfl h
            exact startRequest_dead hY.1 _ t i hi

theorem settingsApply_disable_not_live {s1 : Sys} (h : SysInv s1)
    (hen : s1.enabled = false) : ∀ i, ¬ LiveAt (settingsApply s1) i := by
  unfold settingsApply
  split
  · rename_i hcond
    have := hcond.1
    rw [hen] at this
    cases this
  · split
    · exact stopAll_not_live h.1
    · rename_i hc1 hc2
      push_neg at hc2
      exact h.2 (hc2 hen)

theorem onUrl_not_live {s : Sys} (h : SysInv s) (nv : Option String)
    (hne : nv ≠ s.videoId) : ∀ i, ¬ LiveAt (onUrlMaybeChanged nv s) i := by
  unfold onUrlMaybeChanged
  rw [if_neg hne]
  split
  · intro i hl
    exact resetForNavigation_not_live h.1 nv i
      ((liveAt_congr (tryStartActive_reqs _) i).mp hl)
  · exact resetForNavigation_not_live h.1 nv

theorem step_new_request_cancels {s : Sys} (h : SysInv s) (e : Ev)
    (hlen : (step s e).reqs.length ≠ s.reqs.length) :
    ∀ i, i < s.reqs.length → ¬ LiveAt (step s e) i := by
  cases e with
  | timeUpdate pn dn t ad =>
    rcases onTimeTick_dead_or_preserves h pn dn t ad with hp | hd
    · exact (hlen (congrArg List.length hp)).elim
    · exact hd
  | seeked pn dn t ad =>
    rcases onTimeTick_dead_or_preserves h pn dn t ad with hp | hd
    · exact (hlen (congrArg List.length hp)).elim
    · exact hd
  | rateChange pn dn t ad =>
    by_cases hatt : s.attached = true
    · have hs : step s (Ev.rateChange pn dn t ad)
          = onTimeTick pn dn t ad { s with lastTickAt := 0 } := by
        show (if s.attached = true then
          onTimeTick pn dn t ad { s with lastTickAt := 0 } else s) = _
        rw [if_pos hatt]
      rw [hs] at hlen ⊢
      have h0 : SysInv ({ s with lastTickAt := 0 } : Sys) :=
        sysInv_congr rfl rfl rfl h
      rcases onTimeTick_dead_or_preserves h0 pn dn t ad with hp | hd
      · exact (hlen (congrArg List.length hp)).elim
      · exact hd
    · have hs : step s (Ev.rateChange pn dn t ad) = s := by
        show (if s.attached = true then
          onTimeTick pn dn t ad { s with lastTickAt := 0 } else s) = _
        rw [if_neg hatt]
      rw [hs] at hlen
      exact (hlen rfl).elim
  | mediaPlay =>
    have hs : (step s Ev.mediaPlay).reqs = s.reqs := by
      show (if s.attached = true then setCaptionText "" s else s).reqs = s.reqs
      split <;> simp
    exact (hlen (congrArg List.length hs)).elim
  | mediaPause =>
    have hs : (step s Ev.mediaPause).reqs = s.reqs := by
      show (if s.attached = true then setCaptionText "" s else s).reqs = s.reqs
      split <;> simp
    exact (hlen (congrArg List.length hs)).elim
  | netSettle i dn o => exact (hlen (settleNet_reqs_length i dn o s)).elim
  | recoveryTimer =>
    have hs : (step s Ev.recoveryTimer).reqs = s.reqs := by
      show (if s.recovery = 0 then s
        else setState Mode.active { s with recovery := s.recovery - 1 }).reqs = s.reqs
      split <;> simp
    exact (hlen (congrArg List.length hs)).elim
  | attachOk pn dn t ad =>
    by_cases hpend : s.attachPending = true
    · have hs : step s (Ev.attachOk pn dn t ad)
          = onTimeTick pn dn t ad
              { s with attachPending := false, attached := true, lastTickAt := 0 } := by
        show (if s.attachPending = true then _ else s) = _
        rw [if_pos hpend]
      rw [hs] at hlen ⊢
      have h0 : SysInv
          ({ s with attachPending := false, attached := true,
                    lastTickAt := 0 } : Sys) :=
        sysInv_congr rfl rfl rfl h
      rcases onTimeTick_dead_or_preserves h0 pn dn t ad with hp | hd
      · exact (hlen (congrArg List.length hp)).elim
      · exact hd
    · have hs : step s (Ev.attachOk pn dn t ad) = s := by
        show (if s.attachPending = true then
          onTimeTick pn dn t ad
            { s with attachPending := false, attached := true, lastTickAt := 0 }
          else s) = _
        rw [if_neg hpend]
      rw [hs] at hlen
      exact (hlen rfl).elim
  | attachFail =>
    have hs : (step s Ev.attachFail).reqs = s.reqs := by
      show (if s.attachPending = true then
        setState Mode.error { s with attachPending := false } else s).reqs = s.reqs
      split <;> simp
    exact (hlen (congrArg List.length hs)).elim
  | settingsChanged en l hh =>
    have hs : (step s (Ev.settingsChanged en l hh)).reqs.length = s.reqs.length := by
      show (onSettingsChanged en l hh s).reqs.length = s.reqs.length
      unfold onSettingsChanged
      rw [settingsApply_reqs_length]
    exact (hlen hs).elim
  | startTranslation l hh nv =>
    have hs : (step s (Ev.startTranslation l hh nv)).reqs.length = s.reqs.length := by
      show (onStartTranslation l hh nv s).reqs.length = s.reqs.length
      unfold onStartTranslation
      rw [tryStartActive_reqs]
    exact (hlen hs).elim
  | stopTranslation => exact (hlen (stopAll_reqs_length s)).elim
  | urlChanged nv => exact (hlen (onUrlMaybeChanged_reqs_length nv s)).elim

theorem settleNet_aborted_eq (s : Sys) (i : ℕ) (dn : ℤ) (o : Outcome)
    (r : Request) (hr : s.reqs[i]? = some r)
    (hab : r.stage = ReqStage.aborted) : settleNet i dn o s = s := by
  obtain ⟨st, ck, tq⟩ := r
  have hab' : st = ReqStage.aborted := hab
  subst hab'
  unfold settleNet
  rw [hr]
  rfl

theorem settleNet_mode_cases (i : ℕ) (dn : ℤ) (o : Outcome) (s : Sys) :
    (settleNet i dn o s).mode = s.mode ∨ (settleNet i dn o s).mode = Mode.error := by
  unfold settleNet
  split
  · left; rfl
  · split
    · left; simp
    · left; rfl
    · split
      · left; simp
      · right; simp
    · split
      · left; simp
      · right; simp

/-- C1: the eventual settlement of a superseded or canceled request — one
whose cancellation token was invoked by a newer tick, a stop command or a
context change — never causes a cache write, a render call or a mode
transition, regardless of its outcome and arrival order: the engine state is
unchanged. -/
theorem superseded_settlement_discarded (s : Sys) (i : ℕ) (dn : ℤ)
    (o : Outcome) (r : Request) (hr : s.reqs[i]? = some r)
    (hab : r.stage = ReqStage.aborted) :
    (step s (Ev.netSettle i dn o)).cache = s.cache ∧
    (step s (Ev.netSettle i dn o)).renders = s.renders ∧
    (step s (Ev.netSettle i dn o)).mode = s.mode ∧
    step s (Ev.netSettle i dn o) = s := by
  have hs : step s (Ev.netSettle i dn o) = s := settleNet_aborted_eq s i dn o r hr hab
  exact ⟨by rw [hs], by rw [hs], by rw [hs], hs⟩

/-- Start, attach, and issue the first hydration request for video `"v"`. -/
def pendTrace : List Ev :=
  [Ev.startTranslation none none (some "v"), Ev.attachOk 1000 0 0 false]

/-- State with one live request (stage `chunks`, generation 0). -/
def pendSys : Sys := run (initSys none) pendTrace

/-- A later tick at a different bucket supersedes request 0. -/
def supersededSys : Sys := step pendSys (Ev.timeUpdate 2000 0 10 false)

theorem superseded_settlement_discarded_witness :
    supersededSys.reqs[0]? = some ⟨ReqStage.aborted, "v|en|0", 0⟩ ∧
    step supersededSys (Ev.netSettle 0 3000 (Outcome.ok [⟨0, 1, "X"⟩]))
      = supersededSys :=
  ⟨by decide,
   (superseded_settlement_discarded supersededSys 0 3000 (Outcome.ok [⟨0, 1, "X"⟩])
      ⟨ReqStage.aborted, "v|en|0", 0⟩ (by decide) rfl).2.2.2⟩

/-- C2: in every reachable state at most one request is live; any step that
creates a new request leaves no previously created request live (the prior
in-flight request is canceled when the new one starts); and a stop command, a
disable via settings, or a context change (a URL change to a different video
id) leaves no request live. -/
theorem at_most_one_inflight_request (v0 : Option String) (evs : List Ev) :
    (∀ i j, LiveAt (run (initSys v0) evs) i → LiveAt (run (initSys v0) evs) j →
      i = j) ∧
    (∀ e, (step (run (initSys v0) evs) e).reqs.length
        ≠ (run (initSys v0) evs).reqs.length →
      ∀ i, i < (run (initSys v0) evs).reqs.length →
        ¬ LiveAt (step (run (initSys v0) evs) e) i) ∧
    (∀ i, ¬ LiveAt (step (run (initSys v0) evs) Ev.stopTranslation) i) ∧
    (∀ l hh i, ¬ LiveAt (step (run (initSys v0) evs)
      (Ev.settingsChanged false l hh)) i) ∧
    (∀ nv, nv ≠ (run (initSys v0) evs).videoId →
      ∀ i, ¬ LiveAt (step (run (initSys v0) evs) (Ev.urlChanged nv)) i) := by
  have h := sysInv_run v0 evs
  refine ⟨?_, ?_, ?_, ?_, ?_⟩
  · intro i j hi hj
    have := h.1 i hi
    rw [h.1 j hj] at this
    injection this with hh
    exact hh.symm
  · exact fun e => step_new_request_cancels h e
  · exact stopAll_not_live h.1
  · intro l hh i
    have h1 : SysInv
        ({ run (initSys v0) evs with
            enabled := false,
            language := orKeep l (run (initSys v0) evs).language,
            hint := orKeep hh (run (initSys v0) evs).hint } : Sys) :=
      sysInv_congr rfl rfl rfl h
    exact settingsApply_disable_not_live h1 rfl i
  · exact fun nv hne => onUrl_not_live h nv hne

theorem at_most_one_inflight_request_witness :
    (0 : ℕ) = 0 ∧
    (¬ LiveAt (step pendSys Ev.stopTranslation) 0) ∧
    (¬ LiveAt (step pendSys (Ev.timeUpdate 2000 0 10 false)) 0) :=
  ⟨(at_most_one_inflight_request none pendTrace).1 0 0
      ⟨⟨ReqStage.chunks, "v|en|0", 0⟩, by decide, Or.inl rfl⟩
      ⟨⟨ReqStage.chunks, "v|en|0", 0⟩, by decide, Or.inl rfl⟩,
   (at_most_one_inflight_request none pendTrace).2.2.1 0,
   (at_most_one_inflight_request none pendTrace).2.1
      (Ev.timeUpdate 2000 0 10 false) (by decide) 0 (by decide)⟩

/-- Hydration failure, then a stop command: the 1200 ms recovery timer armed
by the failure is still pending. -/
def failStopTrace : List Ev :=
  pendTrace ++ [Ev.netSettle 0 0 Outcome.err, Ev.stopTranslation]

/-- C3 counterexample: (a) after a hydration failure arms the recovery timer
and a stop command sets the mode to Idle, the timer firing moves the mode to
Active — an internal timer activates the engine after a stop, with no enable
command; (b) a start command sets the mode to Active immediately, before the
attach to the player has succeeded (`attached = false`). -/
theorem recovery_timer_reactivates_after_stop :
    (run (initSys none) failStopTrace).mode = Mode.idle ∧
    (run (initSys none) (failStopTrace ++ [Ev.recoveryTimer])).mode = Mode.active ∧
    (run (initSys none) [Ev.startTranslation none none (some "v")]).mode
      = Mode.active ∧
    (run (initSys none) [Ev.startTranslation none none (some "v")]).attached
      = false := by
  decide

/-- C3 (corrected): the mode becomes Active only because it already was, or
through a start / settings / navigation command path (which sets Active
immediately on the command, before the attach has succeeded), or because a
pending error-recovery timer fires — the latter regardless of the current
mode, in particular from Idle after a stop. -/
theorem mode_becomes_active_only_by (s : Sys) (e : Ev)
    (h : (step s e).mode = Mode.active) :
    s.mode = Mode.active ∨
    (∃ l hh v, e = Ev.startTranslation l hh v) ∨
    (∃ en l hh, e = Ev.settingsChanged en l hh) ∨
    (∃ v, e = Ev.urlChanged v) ∨
    (e = Ev.recoveryTimer ∧ 0 < s.recovery) := by
  cases e with
  | timeUpdate pn dn t ad =>
    left
    rw [show step s (Ev.timeUpdate pn dn t ad) = onTimeTick pn dn t ad s from rfl,
      onTimeTick_mode] at h
    exact h
  | seeked pn dn t ad =>
    left
    rw [show step s (Ev.seeked pn dn t ad) = onTimeTick pn dn t ad s from rfl,
      onTimeTick_mode] at h
    exact h
  | rateChange pn dn t ad =>
    left
    by_cases hatt : s.attached = true
    · have hd : step s (Ev.rateChange pn dn t ad)
          = onTimeTick pn dn t ad { s with lastTickAt := 0 } := by
        show (if s.attached = true then
          onTimeTick pn dn t ad { s with lastTickAt := 0 } else s) = _
        rw [if_pos hatt]
      rw [hd, onTimeTick_mode] at h
      exact h
    · have hd : step s (Ev.rateChange pn dn t ad) = s := by
        show (if s.attached = true then
          onTimeTick pn dn t ad { s with lastTickAt := 0 } else s) = _
        rw [if_neg hatt]
      rw [hd] at h
      exact h
  | mediaPlay =>
    left
    have hd : (step s Ev.mediaPlay).mode = s.mode := by
      show (if s.attached = true then setCaptionText "" s else s).mode = s.mode
      split <;> simp
    rw [hd] at h
    exact h
  | mediaPause =>
    left
    have hd : (step s Ev.mediaPause).mode = s.mode := by
      show (if s.attached = true then setCaptionText "" s else s).mode = s.mode
      split <;> simp
    rw [hd] at h
    exact h
  | netSettle i dn o =>
    left
    rcases settleNet_mode_cases i dn o s with hm | hm
    · rw [show (step s (Ev.netSettle i dn o)).mode = (settleNet i dn o s).mode
        from rfl, hm] at h
      exact h
    · rw [show (step s (Ev.netSettle i dn o)).mode = (settleNet i dn o s).mode
        from rfl, hm] at h
      cases h
  | recoveryTimer =>
    by_cases hrec : s.recovery = 0
    · left
      have hd : step s Ev.recoveryTimer = s := by
        show (if s.recovery = 0 then s
          else setState Mode.active { s with recovery := s.recovery - 1 }) = _
        rw [if_pos hrec]
      rw [hd] at h
      exact h
    · right; right; right; right
      exact ⟨rfl, by omega⟩
  | attachOk pn dn t ad =>
    left
    by_cases hpend : s.attachPending = true
    · have hd : step s (Ev.attachOk pn dn t ad)
          = onTimeTick pn dn t ad
              { s with attachPending := false, attached := true, lastTickAt := 0 } := by
        show (if s.attachPending = true then _ else s) = _
        rw [if_pos hpend]
      rw [hd, onTimeTick_mode] at h
      exact h
    · have hd : step s (Ev.attachOk pn dn t ad) = s := by
        show (if s.attachPending = true then
          onTimeTick pn dn t ad
            { s with attachPending := false, attached := true, lastTickAt := 0 }
          else s) = _
        rw [if_neg hpend]
      rw [hd] at h
      exact h
  | attachFail =>
    left
    by_cases hpend : s.attachPending = true
    · have hd : step s Ev.attachFail
          = setState Mode.error { s with attachPending := false } := by
        show (if s.attachPending = true then
          setState Mode.error { s with attachPending := false } else s) = _
        rw [if_pos hpend]
      rw [hd, setState_mode] at h
      cases h
    · have hd : step s Ev.attachFail = s := by
        show (if s.attachPending = true then
          setState Mode.error { s with attachPending := false } else s) = _
        rw [if_neg hpend]
      rw [hd] at h
      exact h
  | settingsChanged en l hh =>
    right; right; left
    exact ⟨en, l, hh, rfl⟩
  | startTranslation l hh v =>
    right; left
    exact ⟨l, hh, v, rfl⟩
  | stopTranslation =>
    left
    rw [show (step s Ev.stopTranslation).mode = (stopAll s).mode from rfl,
      stopAll_mode] at h
    cases h
  | urlChanged v =>
    right; right; right; left
    exact ⟨v, rfl⟩

/-- The engine in Error mode with the recovery timer pending. -/
def errRecSys : Sys := { initSys none with mode := Mode.error, recovery := 1 }

theorem mode_becomes_active_only_by_witness :
    errRecSys.mode = Mode.active ∨
    (∃ l hh v, Ev.recoveryTimer = Ev.startTranslation l hh v) ∨
    (∃ en l hh, Ev.recoveryTimer = Ev.settingsChanged en l hh) ∨
    (∃ v, Ev.recoveryTimer = Ev.urlChanged v) ∨
    (Ev.recoveryTimer = Ev.recoveryTimer ∧ 0 < errRecSys.recovery) :=
  mode_becomes_active_only_by errRecSys Ev.recoveryTimer (by decide)

/-- C4: a non-cancellation failure of either backend stage settles into mode
Error, a blank-caption render (`""`), and one more pending recovery timer;
the timer firing returns the mode to Active with no command; an AbortError
settlement (aborted request) causes none of these effects. -/
theorem backend_failure_error_blank_autorecover :
    (∀ (s : Sys) (i : ℕ) (dn : ℤ) (r : Request), s.reqs[i]? = some r →
      (r.stage = ReqStage.chunks ∨ r.stage = ReqStage.translate) →
      (step s (Ev.netSettle i dn Outcome.err)).mode = Mode.error ∧
      (step s (Ev.netSettle i dn Outcome.err)).renders = "" :: s.renders ∧
      (step s (Ev.netSettle i dn Outcome.err)).recovery = s.recovery + 1) ∧
    (∀ s : Sys, 0 < s.recovery → (step s Ev.recoveryTimer).mode = Mode.active) ∧
    (∀ (s : Sys) (i : ℕ) (dn : ℤ) (o : Outcome) (r : Request),
      s.reqs[i]? = some r → r.stage = ReqStage.aborted →
      (step s (Ev.netSettle i dn o)).mode = s.mode ∧
      (step s (Ev.netSettle i dn o)).renders = s.renders ∧
      (step s (Ev.netSettle i dn o)).recovery = s.recovery) := by
  refine ⟨?_, ?_, ?_⟩
  · intro s i dn r hr hlive
    obtain ⟨st, ck, tq⟩ := r
    rcases hlive with hst | hst <;>
    · have hst' : st = _ := hst
      subst hst'
      have hs : step s (Ev.netSettle i dn Outcome.err)
          = hydrateCatch false
              { s with reqs := s.reqs.set i ⟨ReqStage.settled, ck, tq⟩ } := by
        show settleNet i dn Outcome.err s = _
        unfold settleNet
        rw [hr]
      rw [hs]
      refine ⟨hydrateCatch_false_mode _, ?_, ?_⟩
      · rw [hydrateCatch_false_renders]
      · rw [hydrateCatch_false_recovery]
  · intro s hrec
    have hs : step s Ev.recoveryTimer
        = setState Mode.active { s with recovery := s.recovery - 1 } := by
      show (if s.recovery = 0 then s
        else setState Mode.active { s with recovery := s.recovery - 1 }) = _
      rw [if_neg (by omega)]
    rw [hs, setState_mode]
  · intro s i dn o r hr hab
    have hs : step s (Ev.netSettle i dn o) = s :=
      settleNet_aborted_eq s i dn o r hr hab
    exact ⟨by rw [hs], by rw [hs], by rw [hs]⟩

theorem backend_failure_error_blank_autorecover_witness :
    ((step pendSys (Ev.netSettle 0 0 Outcome.err)).mode = Mode.error ∧
     (step pendSys (Ev.netSettle 0 0 Outcome.err)).renders = "" :: pendSys.renders ∧
     (step pendSys (Ev.netSettle 0 0 Outcome.err)).recovery = pendSys.recovery + 1) ∧
    (step errRecSys Ev.recoveryTimer).mode = Mode.active ∧
    ((step supersededSys (Ev.netSettle 0 0 Outcome.err)).mode = supersededSys.mode ∧
     (step supersededSys (Ev.netSettle 0 0 Outcome.err)).renders = supersededSys.renders ∧
     (step supersededSys (Ev.netSettle 0 0 Outcome.err)).recovery
       = supersededSys.recovery) :=
  ⟨backend_failure_error_blank_autorecover.1 pendSys 0 0
      ⟨ReqStage.chunks, "v|en|0", 0⟩ (by decide) (Or.inl rfl),
   backend_failure_error_blank_autorecover.2.1 errRecSys (by decide),
   backend_failure_error_blank_autorecover.2.2 supersededSys 0 0 Outcome.err
      ⟨ReqStage.aborted, "v|en|0", 0⟩ (by decide) rfl⟩

/-- C5 counterexample: with the last processed tick at `performance.now()
= 1000`, a `seeked` event at 1100 (inside the 250 ms throttle window) is
dropped entirely — the state is unchanged, the last-processed timestamp stays
1000 instead of being reset to zero, and no tick is processed. -/
theorem seek_does_not_bypass_throttle :
    pendSys.lastTickAt = 1000 ∧
    step pendSys (Ev.seeked 1100 0 5 false) = pendSys := by
  decide

/-- C5 (corrected): time-update and seek ticks are both throttled — within
`1000 / TICK_HZ` ms of the last processed tick they are dropped with no state
change; only a rate-change event bypasses throttling, by resetting the
last-processed timestamp to zero before invoking the tick handler; and an
unthrottled time-update in Active mode is processed (the last-processed
timestamp advances to the event time). -/
theorem only_ratechange_bypasses_throttle (s : Sys) (pn : ℕ) (dn : ℤ)
    (t : ℚ) (ad : Bool) :
    (pn - s.lastTickAt < 1000 / SST.TICK_HZ →
      step s (Ev.timeUpdate pn dn t ad) = s ∧
      step s (Ev.seeked pn dn t ad) = s) ∧
    (s.attached = true →
      step s (Ev.rateChange pn dn t ad)
        = onTimeTick pn dn t ad { s with lastTickAt := 0 }) ∧
    (s.attached = true → s.mode = Mode.active →
      ¬ pn - s.lastTickAt < 1000 / SST.TICK_HZ →
      (step s (Ev.timeUpdate pn dn t ad)).lastTickAt = pn) := by
  refine ⟨?_, ?_, ?_⟩
  · intro hth
    exact ⟨onTimeTick_throttled hth dn t ad, onTimeTick_throttled hth dn t ad⟩
  · intro hatt
    show (if s.attached = true then
      onTimeTick pn dn t ad { s with lastTickAt := 0 } else s) = _
    rw [if_pos hatt]
  · intro hatt hmode hth
    show (onTimeTick pn dn t ad s).lastTickAt = pn
    unfold onTimeTick
    rw [if_neg (by push_neg; exact ⟨by simp [hatt], by simp [hmode]⟩), if_neg hth]
    split
    · rfl
    · split
      · simp
      · rw [tickHydrate_lastTickAt]

theorem only_ratechange_bypasses_throttle_witness :
    (step pendSys (Ev.timeUpdate 1100 0 5 false) = pendSys ∧
     step pendSys (Ev.seeked 1100 0 5 false) = pendSys) ∧
    (step pendSys (Ev.rateChange 1100 0 5 false)
      = onTimeTick 1100 0 5 false { pendSys with lastTickAt := 0 }) ∧
    (step pendSys (Ev.timeUpdate 2000 0 5 false)).lastTickAt = 2000 :=
  ⟨(only_ratechange_bypasses_throttle pendSys 1100 0 5 false).1 (by decide),
   (only_ratechange_bypasses_throttle pendSys 1100 0 5 false).2.1 (by decide),
   (only_ratechange_bypasses_throttle pendSys 2000 0 5 false).2.2
      (by decide) (by decide) (by decide)⟩
